import Mathlib

/-!
Verification development for the vibe-commerce hybrid product-search subsystem.

The definitions below are a shallow embedding of the relevant TypeScript
sources:

* the vector math service (`cosineSimilarity`, `findTopKSimilar`,
  `filterSimilarResults`, `combineProductFields`),
* the Drizzle products schema (status enum, nullable embedding column),
* the semantic-search route (`GET /api/search`): validation adapter, candidate
  query, vector scoring, in-request keyword search, merge, and the catch-block
  keyword fallback query,
* the request validation schemas (`sanitizePrompt`, `semanticSearchSchema`),
* the batch vectorization script (`vectorize-products.ts`) together with the
  `generateBatchEmbeddings` provider adapter.

JavaScript `number` is modelled as `ℝ`; thrown exceptions are modelled with
`Except String`; the embedding provider is modelled as an oracle passed in as
a function argument (a call either yields a vector or fails).
-/

namespace VibeCommerce

/-! ### Vector math service -/

/-- Dot-product accumulator of the loop in `cosineSimilarity`. -/
def dotProduct : List ℝ → List ℝ → ℝ
  | a :: as, b :: bs => a * b + dotProduct as bs
  | _, _ => 0

/-- Sum of squared entries, the `normA`/`normB` accumulators before `Math.sqrt`. -/
def sumSq : List ℝ → ℝ
  | [] => 0
  | a :: as => a * a + sumSq as

/-- Euclidean norm of a vector, i.e. `Math.sqrt` of the summed squares. -/
noncomputable def euclidNorm (v : List ℝ) : ℝ :=
  Real.sqrt (sumSq v)

/-- Mirrors `cosineSimilarity(vecA, vecB)` from the vectorize service: throws
on a length mismatch, returns 0 when either norm is exactly zero, and
otherwise returns the dot product divided by the product of the norms. -/
noncomputable def cosineSimilarity (vecA vecB : List ℝ) : Except String ℝ :=
  if vecA.length ≠ vecB.length then .error "Vectors must have the same length"
  else if Real.sqrt (sumSq vecA) = 0 ∨ Real.sqrt (sumSq vecB) = 0 then .ok 0
  else .ok (dotProduct vecA vecB / (Real.sqrt (sumSq vecA) * Real.sqrt (sumSq vecB)))

/-- Value computed by `cosineSimilarity` in the non-throwing case. -/
noncomputable def cosineValue (vecA vecB : List ℝ) : ℝ :=
  if Real.sqrt (sumSq vecA) = 0 ∨ Real.sqrt (sumSq vecB) = 0 then 0
  else dotProduct vecA vecB / (Real.sqrt (sumSq vecA) * Real.sqrt (sumSq vecB))

/-- Candidate item handed to `findTopKSimilar`: identifier, stored vector and
an attached opaque payload (`data`). -/
structure VectorEntry (α : Type) where
  id : String
  vector : List ℝ
  data : α

/-- Scored item produced by `findTopKSimilar`. -/
structure ScoredEntry (α : Type) where
  id : String
  similarity : ℝ
  data : α

/-- Descending-score ordering used by the `(a, b) => b.similarity - a.similarity`
sort comparator. -/
def similarityDesc {α : Type} : ScoredEntry α → ScoredEntry α → Prop :=
  fun a b => b.similarity ≤ a.similarity

noncomputable instance {α : Type} : DecidableRel (similarityDesc (α := α)) := fun a b =>
  inferInstanceAs (Decidable (b.similarity ≤ a.similarity))

instance {α : Type} : IsTotal (ScoredEntry α) similarityDesc :=
  ⟨fun a b => le_total b.similarity a.similarity⟩

instance {α : Type} : IsTrans (ScoredEntry α) similarityDesc :=
  ⟨fun _ _ _ h h2 => le_trans h2 h⟩

/-- The `vectors.map(item => ({id, similarity: cosineSimilarity(...), data}))`
step of `findTopKSimilar`; the first cosine failure propagates as a thrown
error, exactly as the JavaScript `map` would throw. -/
noncomputable def scoreAll (queryVector : List ℝ) :
    List (VectorEntry α) → Except String (List (ScoredEntry α))
  | [] => .ok []
  | item :: rest =>
    match cosineSimilarity queryVector item.vector with
    | .error e => .error e
    | .ok s =>
      match scoreAll queryVector rest with
      | .error e => .error e
      | .ok tail => .ok (⟨item.id, s, item.data⟩ :: tail)

/-- JavaScript `list.slice(0, endIdx)`: a non-negative end index truncates to
that many elements, a negative end index counts back from the end of the
list (clamped at zero). -/
def jsSliceTo (l : List α) (endIdx : Int) : List α :=
  if 0 ≤ endIdx then l.take endIdx.toNat
  else l.take ((l.length : Int) + endIdx).toNat

/-- Mirrors `findTopKSimilar(queryVector, vectors, k)`: score every candidate,
sort by descending similarity (the JavaScript sort is stable, modelled by
insertion sort), and return `similarities.slice(0, k)`. -/
noncomputable def findTopKSimilar (queryVector : List ℝ) (vectors : List (VectorEntry α))
    (k : Int) : Except String (List (ScoredEntry α)) :=
  match scoreAll queryVector vectors with
  | .error e => .error e
  | .ok similarities => .ok (jsSliceTo (List.insertionSort similarityDesc similarities) k)

/-- Mirrors `filterSimilarResults(results, threshold)`: fold over the results
in input order, keeping a result unless some already-kept result's score is
strictly within `1 - threshold` of it. The test is purely on scores. -/
noncomputable def filterSimilarResults (results : List (ScoredEntry α)) (threshold : ℝ) :
    List (ScoredEntry α) :=
  results.foldl
    (fun filtered result =>
      if filtered.any (fun existing => |existing.similarity - result.similarity| < 1 - threshold)
      then filtered
      else filtered ++ [result])
    []

/-- Greedy keep-loop written from the specification text: process results in
input order and keep a result if and only if no previously kept result's
score lies strictly within `(1 - threshold)` of its score. -/
noncomputable def filterSimilarKeepSpec (threshold : ℝ) :
    List (ScoredEntry α) → List (ScoredEntry α) → List (ScoredEntry α)
  | kept, [] => kept
  | kept, r :: rest =>
    if ∀ e ∈ kept, ¬ |e.similarity - r.similarity| < 1 - threshold then
      filterSimilarKeepSpec threshold (kept ++ [r]) rest
    else filterSimilarKeepSpec threshold kept rest

/-! ### Product rows (Drizzle schema) -/

/-- Search-relevant columns of the `products` table: textual fields, the
status column (a text column constrained to the enum below) and the nullable
JSON `vector_embedding` column. -/
structure Product where
  id : String
  name : String
  description : String
  category : String
  brand : String
  status : String
  vectorEmbedding : Option (List ℝ)

/-- The status enum of the products schema:
`text('status', ... ['in_stock', 'out_of_stock', 'pre_order'])`. -/
def productStatusEnum : List String :=
  ["in_stock", "out_of_stock", "pre_order"]

/-- Mirrors `combineProductFields`: name, brand, category, description joined
by single spaces, with empty fields dropped by `.filter(Boolean)`. -/
def combineProductFields (p : Product) : String :=
  String.intercalate " " (([p.name, p.brand, p.category, p.description]).filter fun s => !(s == ""))

/-! ### Request sanitization and validation -/

/-- Substring test on character lists, used to model both the JavaScript
`String.prototype.includes` and the SQLite `LIKE` pattern with wildcards on
both sides. -/
def charListContains (needle : List Char) : List Char → Bool
  | [] => needle.isEmpty
  | c :: rest => needle.isPrefixOf (c :: rest) || charListContains needle rest

/-- String-level wrapper of `charListContains`. -/
def strContains (hay needle : String) : Bool :=
  charListContains needle.toList hay.toList

/-- JavaScript `toLowerCase`, modelled character by character. -/
def strToLower (s : String) : String :=
  String.mk (s.toList.map Char.toLower)

/-- The SQL keywords removed by the keyword regex of `sanitizePrompt`. -/
def sqlKeywords : List String :=
  ["SELECT", "INSERT", "UPDATE", "DELETE", "DROP", "CREATE", "ALTER"]

/-- Word character in the sense of the regex word-boundary `\b`. -/
def isWordChar (c : Char) : Bool :=
  c.isAlphanum || c = '_'

/-- Case-insensitive match of an uppercase pattern against the head of the
input, returning the remainder on success. -/
def dropCaselessMatch : List Char → List Char → Option (List Char)
  | [], cs => some cs
  | _ :: _, [] => none
  | k :: ks, c :: cs => if c.toUpper = k then dropCaselessMatch ks cs else none

/-- Try each SQL keyword at the current position; a match also needs a word
boundary right after the keyword. -/
def stripKeywordHere : List String → List Char → Option (List Char)
  | [], _ => none
  | kw :: kws, cs =>
    match dropCaselessMatch kw.toList cs with
    | some rest =>
      if rest.head?.all (fun c => !(isWordChar c)) then some rest
      else stripKeywordHere kws cs
    | none => stripKeywordHere kws cs

/-- Fuelled scan modelling the global, case-insensitive removal of the SQL
keywords at word boundaries; the boolean tracks whether the previous input
character was a word character (no boundary). Fuel equal to the input length
always suffices because every step consumes at least one character. -/
def removeSqlKeywordsAux : Nat → Bool → List Char → List Char
  | 0, _, cs => cs
  | _ + 1, _, [] => []
  | fuel + 1, prevIsWord, c :: cs =>
    if prevIsWord then c :: removeSqlKeywordsAux fuel (isWordChar c) cs
    else
      match stripKeywordHere sqlKeywords (c :: cs) with
      | some rest => removeSqlKeywordsAux fuel false rest
      | none => c :: removeSqlKeywordsAux fuel (isWordChar c) cs

/-- Lowercase character list of the script-tag opener. -/
def scriptOpen : List Char :=
  "<script".toList

/-- Lowercase character list of the script-tag closer. -/
def scriptClose : List Char :=
  "</script>".toList

/-- Case-insensitive test that a lowercase pattern heads the input. -/
def headMatchesCaseless : List Char → List Char → Bool
  | [], _ => true
  | _ :: _, [] => false
  | p :: ps, c :: cs => p = c.toLower && headMatchesCaseless ps cs

/-- Scan forward to the first closing script tag; return what follows it. -/
def dropThroughScriptClose : List Char → Option (List Char)
  | [] => none
  | c :: cs =>
    if headMatchesCaseless scriptClose (c :: cs) then some ((c :: cs).drop scriptClose.length)
    else dropThroughScriptClose cs

/-- Fuelled scan modelling the removal of complete `<script ...</script>`
elements by the script-tag regex of `sanitizePrompt`; an opener with no
closer is left in place, matching the regex, which then has no match. -/
def removeScriptBlocksAux : Nat → List Char → List Char
  | 0, cs => cs
  | _ + 1, [] => []
  | fuel + 1, c :: cs =>
    if headMatchesCaseless scriptOpen (c :: cs) &&
        ((c :: cs).drop scriptOpen.length).head?.all (fun ch => !(isWordChar ch)) then
      match dropThroughScriptClose cs with
      | some rest => removeScriptBlocksAux fuel rest
      | none => c :: removeScriptBlocksAux fuel cs
    else c :: removeScriptBlocksAux fuel cs

/-- Mirrors `sanitizePrompt`: trim and collapse whitespace runs to single
spaces, then strip the SQL keywords, then strip script elements. -/
def sanitizePrompt (text : String) : String :=
  let collapsed :=
    String.intercalate " " ((text.split fun c => c.isWhitespace).filter fun w => !(w == ""))
  let noSql := String.mk (removeSqlKeywordsAux collapsed.toList.length false collapsed.toList)
  String.mk (removeScriptBlocksAux noSql.toList.length noSql.toList)

/-- Raw query-string parameters of `GET /api/search` before the route adapter
and the zod schema run; a missing parameter is `none`. -/
structure RawSearchQuery where
  query : Option String
  limit : Option Int
  minSimilarity : Option ℝ
  category : Option String
  brand : Option String

/-- Validated search request, the output type of `semanticSearchSchema`. -/
structure SearchRequest where
  query : String
  limit : Int
  minSimilarity : ℝ
  category : Option String
  brand : Option String

/-- Mirrors the route adapter (`query.query || ''`, `parseInt`-or-10,
`parseFloat`-or-0.5) followed by `semanticSearchSchema.parse`: string length
bounds on the raw query, integer limit in `(0, 50]`, threshold in `[0, 1]`,
and the `sanitizePrompt` transform on success. A zod failure is a thrown
`ZodError`, modelled as `Except.error`. -/
noncomputable def parseSearchRequest (raw : RawSearchQuery) : Except String SearchRequest :=
  let q := raw.query.getD ""
  let lim := raw.limit.getD 10
  let ms := raw.minSimilarity.getD 0.5
  if q.length < 1 then .error "Search query cannot be empty"
  else if 500 < q.length then .error "Search query is too long"
  else if lim ≤ 0 then .error "Limit must be positive"
  else if 50 < lim then .error "Limit cannot exceed 50"
  else if ms < 0 ∨ 1 < ms then .error "minSimilarity must lie between 0 and 1"
  else .ok ⟨sanitizePrompt q, lim, ms, raw.category, raw.brand⟩

/-! ### The search route -/

/-- Drizzle `eq` condition for an optional category/brand filter. -/
def matchesOptFilter (field : String) : Option String → Bool
  | some v => field == v
  | none => true

/-- The candidate query of the route: `status = 'active'` plus the optional
category and brand conditions. -/
def fetchFilteredProducts (catalog : List Product) (req : SearchRequest) : List Product :=
  catalog.filter fun p =>
    p.status == "active" && matchesOptFilter p.category req.category &&
      matchesOptFilter p.brand req.brand

/-- The `productsWithVectors` step: keep products whose stored embedding is a
present JSON array (no dimension check), and repackage them as candidates. -/
def productsWithVectors (allProducts : List Product) : List (VectorEntry Product) :=
  (allProducts.filter fun p => p.vectorEmbedding.isSome).map fun p =>
    { id := p.id, vector := p.vectorEmbedding.getD [], data := p }

/-- The vector scoring step: `findTopKSimilar(queryVector, productsWithVectors,
limit * 2)` followed by the `similarity >= minSimilarity` filter. -/
noncomputable def vectorSearchResults (queryVector : List ℝ) (allProducts : List Product)
    (req : SearchRequest) : Except String (List (ScoredEntry Product)) :=
  match findTopKSimilar queryVector (productsWithVectors allProducts) (req.limit * 2) with
  | .error e => .error e
  | .ok results => .ok (results.filter fun r => req.minSimilarity ≤ r.similarity)

/-- Case-insensitive substring match of the query against name, description,
category and brand. -/
def textMatchesQuery (p : Product) (q : String) : Bool :=
  strContains (strToLower p.name) (strToLower q) || strContains (strToLower p.description) (strToLower q) ||
    strContains (strToLower p.category) (strToLower q) || strContains (strToLower p.brand) (strToLower q)

/-- The in-request keyword step: products without a stored vector whose text
fields contain the query. -/
def keywordSearchResults (allProducts : List Product) (req : SearchRequest) : List Product :=
  (allProducts.filter fun p => p.vectorEmbedding.isNone).filter fun p =>
    textMatchesQuery p req.query

/-- An entry of the combined result list: the spread product row plus its
`similarity` field. -/
structure SearchHit where
  product : Product
  similarity : ℝ

/-- Descending-score ordering on combined search hits. -/
def hitDesc : SearchHit → SearchHit → Prop :=
  fun a b => b.similarity ≤ a.similarity

/-- The merge step of the route: vector results first (retaining their
scores), then keyword results whose id is not among the vector result ids,
each given the fixed score 0.3, truncated by `slice(0, limit)`. -/
noncomputable def mergeSearchResults (vectorResults : List (ScoredEntry Product))
    (keywordResults : List Product) (limit : Int) : List SearchHit :=
  jsSliceTo
    (vectorResults.map (fun r => { product := r.data, similarity := r.similarity }) ++
      (keywordResults.filter fun p => !(vectorResults.any fun r => r.id == p.id)).map
        fun p => { product := p, similarity := 0.3 })
    limit

/-- JSON body of a successful search response. The try branch carries scored
hits; the catch branch returns plain product rows with no similarity field.
Both are HTTP 200 responses with `success: true`. -/
inductive SearchResponse where
  | scored (products : List SearchHit) (total : Nat) (method : String)
  | plain (products : List Product) (total : Nat) (method : String)

/-- The body of the route's `try` block, given the outcome of the
`generateEmbedding` call: candidate query, vector scoring, keyword search,
merge, and the `hybrid`/`keyword` method tag. Any thrown error (embedding
failure or a cosine dimension mismatch) surfaces as `Except.error`. -/
noncomputable def searchTryBranch (catalog : List Product) (req : SearchRequest)
    (embedOutcome : Except String (List ℝ)) : Except String SearchResponse :=
  match embedOutcome with
  | .error e => .error e
  | .ok queryVector =>
    let allProducts := fetchFilteredProducts catalog req
    match vectorSearchResults queryVector allProducts req with
    | .error e => .error e
    | .ok vectorResults =>
      let combined :=
        mergeSearchResults vectorResults (keywordSearchResults allProducts req) req.limit
      .ok (.scored combined combined.length
        (if vectorResults.length > 0 then "hybrid" else "keyword"))

/-- The catch-block fallback query. Its WHERE clause is built as
`and(status = 'active', [category], [brand], sql "name LIKE q OR description
LIKE q")`; drizzle joins the operands of `and(...)` with ` and ` and inlines
the raw fragment without parentheses of its own, so — AND binding tighter
than OR in SQLite — the generated condition is
`(status = 'active' AND filters AND name LIKE q) OR description LIKE q`:
a description match bypasses the status, category and brand conditions.
SQLite LIKE is case-insensitive; the query is limited to the validated
limit. -/
def fallbackKeywordProducts (catalog : List Product) (req : SearchRequest) : List Product :=
  (catalog.filter fun p =>
      (p.status == "active" && matchesOptFilter p.category req.category &&
          matchesOptFilter p.brand req.brand &&
          strContains (strToLower p.name) (strToLower req.query)) ||
        strContains (strToLower p.description) (strToLower req.query)).take req.limit.toNat

/-- The whole `GET /api/search` handler after validation: run the try branch
and, on any thrown error, answer with the keyword fallback query and the
`keyword-fallback` method tag. -/
noncomputable def searchRoute (catalog : List Product) (req : SearchRequest)
    (embedOutcome : Except String (List ℝ)) : SearchResponse :=
  match searchTryBranch catalog req embedOutcome with
  | .ok resp => resp
  | .error _ =>
    .plain (fallbackKeywordProducts catalog req) (fallbackKeywordProducts catalog req).length
      "keyword-fallback"

/-- The endpoint including validation: `semanticSearchSchema.parse` runs
before the database client is created and before `generateEmbedding` is
called, and a validation failure propagates out of the handler. -/
noncomputable def searchEndpoint (catalog : List Product)
    (embed : String → Except String (List ℝ)) (raw : RawSearchQuery) :
    Except String SearchResponse :=
  match parseSearchRequest raw with
  | .error e => .error e
  | .ok validated => .ok (searchRoute catalog validated (embed validated.query))

/-! ### Batch vectorization pipeline -/

/-- Mirrors `generateBatchEmbeddings`: `Promise.all` over per-text embedding
calls, so one rejected call rejects the whole batch; on success the vectors
come back in input order. -/
def generateBatchEmbeddings (embed : String → Option (List ℝ)) :
    List String → Option (List (List ℝ))
  | [] => some []
  | t :: ts =>
    match embed t, generateBatchEmbeddings embed ts with
    | some v, some vs => some (v :: vs)
    | _, _ => none

/-- The per-product UPDATE of the script: set the embedding of the row with
the given id. -/
def updateProductEmbedding (catalog : List Product) (productId : String)
    (embedding : List ℝ) : List Product :=
  catalog.map fun p =>
    if p.id == productId then { p with vectorEmbedding := some embedding } else p

/-- The inner `for j` loop of the script: persist each product of the batch
with its embedding, in order. -/
def applyBatchUpdates : List Product → List Product → List (List ℝ) → List Product
  | catalog, p :: ps, e :: es => applyBatchUpdates (updateProductEmbedding catalog p.id e) ps es
  | catalog, _, _ => catalog

/-- The batch loop of `vectorize-products.ts`: for each batch, call
`generateBatchEmbeddings`; on success persist every item and count it, on a
thrown batch error skip to the next batch leaving the count unchanged. -/
def runVectorizeBatches (embed : String → Option (List ℝ)) :
    List (List Product) → List Product → Nat → List Product × Nat
  | [], catalog, processed => (catalog, processed)
  | batch :: rest, catalog, processed =>
    match generateBatchEmbeddings embed (batch.map combineProductFields) with
    | some embeddings =>
      runVectorizeBatches embed rest (applyBatchUpdates catalog batch embeddings)
        (processed + batch.length)
    | none => runVectorizeBatches embed rest catalog processed

/-- Outcome of a vectorization run: final catalog state, the processed count
and the number of products that needed vectorization. -/
structure VectorizeOutcome where
  catalog : List Product
  processedCount : Nat
  totalCount : Nat

/-- Mirrors the `vectorizeProducts` script: select the products with a NULL
embedding, cut them into batches of 10, and run the batch loop. The final
report is `processedCount` out of `totalCount`. -/
def vectorizeProducts (embed : String → Option (List ℝ)) (catalog : List Product) :
    VectorizeOutcome :=
  let productsToVectorize := catalog.filter fun p => p.vectorEmbedding.isNone
  let result := runVectorizeBatches embed (List.toChunks 10 productsToVectorize) catalog 0
  { catalog := result.1, processedCount := result.2, totalCount := productsToVectorize.length }

/-! ### Concrete rows, requests and oracles used in witnesses and counterexamples -/

/-- Catalog row whose status is a value of the schema's status enum and whose
description contains the query text of `c1Req`. -/
def c1Product : Product :=
  ⟨"p1", "Premium Wireless Headphones", "Great wireless sound", "electronics", "Acme",
    "in_stock", none⟩

/-- A validated request with the default limit and threshold. -/
def c1Req : SearchRequest :=
  ⟨"wireless", 10, 0.5, none, none⟩

/-- The seventh catalog item of the 12-item vectorization scenario. -/
def c2Product7 : Product :=
  ⟨"7", "p7", "d", "c", "b", "in_stock", none⟩

/-- Twelve catalog items without embeddings, for the partial-batch scenario. -/
def c2Catalog : List Product :=
  [⟨"1", "p1", "d", "c", "b", "in_stock", none⟩,
   ⟨"2", "p2", "d", "c", "b", "in_stock", none⟩,
   ⟨"3", "p3", "d", "c", "b", "in_stock", none⟩,
   ⟨"4", "p4", "d", "c", "b", "in_stock", none⟩,
   ⟨"5", "p5", "d", "c", "b", "in_stock", none⟩,
   ⟨"6", "p6", "d", "c", "b", "in_stock", none⟩,
   c2Product7,
   ⟨"8", "p8", "d", "c", "b", "in_stock", none⟩,
   ⟨"9", "p9", "d", "c", "b", "in_stock", none⟩,
   ⟨"10", "p10", "d", "c", "b", "in_stock", none⟩,
   ⟨"11", "p11", "d", "c", "b", "in_stock", none⟩,
   ⟨"12", "p12", "d", "c", "b", "in_stock", none⟩]

/-- Embedding oracle that fails exactly on the combined text of item 7. -/
noncomputable def c2Embed : String → Option (List ℝ) :=
  fun t => if t == "p7 b c d" then none else some [1]

/-- A catalog row with the keyword "gadget" in its name, for the
embedding-failure scenario. -/
def c3Product : Product :=
  ⟨"g1", "Super Gadget", "A fine gadget", "gadgets", "Acme", "active", none⟩

/-- Request matching the row above by keyword. -/
def c3Req : SearchRequest :=
  ⟨"gadget", 10, 0.5, none, none⟩

/-- An active row whose stored embedding has dimension 1. -/
noncomputable def c4Product : Product :=
  ⟨"pv", "n", "dsc", "c", "b", "active", some [0]⟩

def c4Req : SearchRequest :=
  ⟨"q", 10, 0.5, none, none⟩

/-- A query vector of dimension 2, mismatching the stored vector above. -/
noncomputable def c4QueryVec : List ℝ :=
  [1, 0]

/-- Two candidates with identical one-dimensional vectors. -/
noncomputable def c5Candidates : List (VectorEntry Unit) :=
  [⟨"a", [1], ()⟩, ⟨"b", [1], ()⟩]

/-- A single candidate of dimension 1. -/
noncomputable def c6Candidates : List (VectorEntry Unit) :=
  [⟨"c", [1], ()⟩]

/-- Active row with an embedding orthogonal to the query vector below. -/
noncomputable def c9VectorProduct : Product :=
  ⟨"v", "yy", "yy", "yy", "yy", "active", some [0, 1]⟩

/-- Active row without an embedding whose name contains the query text. -/
def c9KeywordProduct : Product :=
  ⟨"k", "x1", "dd", "cc", "bb", "active", none⟩

noncomputable def c9Catalog : List Product :=
  [c9VectorProduct, c9KeywordProduct]

/-- Request with threshold 0, below the keyword sentinel score 0.3. -/
def c9Req : SearchRequest :=
  ⟨"x", 10, 0, none, none⟩

/-- The same request with the default threshold 0.5. -/
def c9ReqDefault : SearchRequest :=
  ⟨"x", 10, 0.5, none, none⟩

noncomputable def c9QueryVec : List ℝ :=
  [1, 0]

/-- Raw request with an empty query parameter. -/
def c10RawEmpty : RawSearchQuery :=
  ⟨some "", none, none, none, none⟩

/-- Raw request with only a query, leaving limit and threshold absent. -/
def c10RawDefaults : RawSearchQuery :=
  ⟨some "shoes", none, none, none, none⟩

/-- The validated request the parser produces for `c10RawDefaults`. -/
def c10ParsedDefaults : SearchRequest :=
  ⟨sanitizePrompt "shoes", 10, 0.5, none, none⟩

/-! ### Helper lemmas -/

theorem dotProduct_comm : ∀ a b : List ℝ, dotProduct a b = dotProduct b a := by
  intro a
  induction a with
  | nil => intro b; cases b <;> rfl
  | cons x xs ih =>
    intro b
    cases b with
    | nil => rfl
    | cons y ys => simp [dotProduct, ih ys, mul_comm]

theorem cosineSimilarity_eq_ok (a b : List ℝ) (h : a.length = b.length) :
    cosineSimilarity a b = .ok (cosineValue a b) := by
  unfold cosineSimilarity cosineValue
  rw [if_neg (by simp [h])]
  by_cases hz : Real.sqrt (sumSq a) = 0 ∨ Real.sqrt (sumSq b) = 0
  · rw [if_pos hz, if_pos hz]
  · rw [if_neg hz, if_neg hz]

theorem scoreAll_eq_map (qv : List ℝ) (cands : List (VectorEntry α))
    (h : ∀ c ∈ cands, c.vector.length = qv.length) :
    scoreAll qv cands = .ok (cands.map fun c => ⟨c.id, cosineValue qv c.vector, c.data⟩) := by
  induction cands with
  | nil => rfl
  | cons c rest ih =>
    have hc : cosineSimilarity qv c.vector = .ok (cosineValue qv c.vector) :=
      cosineSimilarity_eq_ok qv c.vector (h c (List.mem_cons_self c rest)).symm
    have ht := ih fun x hx => h x (List.mem_cons_of_mem c hx)
    simp [scoreAll, hc, ht]

theorem scoreAll_error_of_mismatch (qv : List ℝ) (cands : List (VectorEntry α))
    (h : ∃ c ∈ cands, c.vector.length ≠ qv.length) :
    scoreAll qv cands = .error "Vectors must have the same length" := by
  induction cands with
  | nil => simp at h
  | cons c rest ih =>
    by_cases hc : c.vector.length = qv.length
    · have hcos : cosineSimilarity qv c.vector = .ok (cosineValue qv c.vector) :=
        cosineSimilarity_eq_ok qv c.vector hc.symm
      have hrest : ∃ x ∈ rest, x.vector.length ≠ qv.length := by
        rcases h with ⟨x, hx, hne⟩
        rcases List.mem_cons.mp hx with rfl | hmem
        · exact absurd hc hne
        · exact ⟨x, hmem, hne⟩
      simp [scoreAll, hcos, ih hrest]
    · have hcos : cosineSimilarity qv c.vector = .error "Vectors must have the same length" := by
        unfold cosineSimilarity
        rw [if_pos (by omega)]
      simp [scoreAll, hcos]

theorem jsSliceTo_sublist (l : List α) (k : Int) : List.Sublist (jsSliceTo l k) l := by
  unfold jsSliceTo
  split <;> exact List.take_sublist _ _

theorem jsSliceTo_zero (l : List α) : jsSliceTo l 0 = [] := by
  simp [jsSliceTo]

theorem jsSliceTo_of_length_le (l : List α) (k : Int) (h : (l.length : Int) ≤ k) :
    jsSliceTo l k = l := by
  unfold jsSliceTo
  rw [if_pos (le_trans (Int.ofNat_nonneg l.length) h)]
  exact List.take_of_length_le (by omega)

theorem generateBatchEmbeddings_eq_none (embed : String → Option (List ℝ))
    (texts : List String) (h : ∃ t ∈ texts, embed t = none) :
    generateBatchEmbeddings embed texts = none := by
  induction texts with
  | nil => simp at h
  | cons t rest ih =>
    rcases h with ⟨x, hx, hnone⟩
    rcases List.mem_cons.mp hx with rfl | hmem
    · simp [generateBatchEmbeddings, hnone]
    · unfold generateBatchEmbeddings
      rw [ih ⟨x, hmem, hnone⟩]
      cases embed t <;> rfl

/-! ### Claim C7 -/

/-- Claim C7: for all equal-length vectors a and b, `cosineSimilarity(a,b)`
equals `cosineSimilarity(b,a)`; and if either vector has Euclidean norm
exactly zero, `cosineSimilarity` returns 0 rather than raising an error. -/
theorem cosineSimilarity_symm_and_zero_norm (a b : List ℝ) (h : a.length = b.length) :
    cosineSimilarity a b = cosineSimilarity b a ∧
      ((euclidNorm a = 0 ∨ euclidNorm b = 0) → cosineSimilarity a b = .ok 0) := by
  have hne : ¬ a.length ≠ b.length := by omega
  have hne2 : ¬ b.length ≠ a.length := by omega
  constructor
  · unfold cosineSimilarity
    rw [if_neg hne, if_neg hne2, dotProduct_comm]
    by_cases hz : Real.sqrt (sumSq a) = 0 ∨ Real.sqrt (sumSq b) = 0
    · rw [if_pos hz, if_pos hz.symm]
    · rw [if_neg hz, if_neg (fun hc => hz hc.symm),
        mul_comm (Real.sqrt (sumSq a)) (Real.sqrt (sumSq b))]
  · intro hz
    unfold cosineSimilarity
    rw [if_neg hne, if_pos (by simpa [euclidNorm] using hz)]

/-- Witness for C7 at the concrete zero vectors of length one. -/
theorem cosineSimilarity_symm_and_zero_norm_witness :
    cosineSimilarity [(0 : ℝ)] [0] = cosineSimilarity [0] [0] ∧
      cosineSimilarity [(0 : ℝ)] [0] = .ok 0 :=
  ⟨(cosineSimilarity_symm_and_zero_norm [0] [0] rfl).1,
    (cosineSimilarity_symm_and_zero_norm [0] [0] rfl).2
      (Or.inl (by norm_num [euclidNorm, sumSq]))⟩

/-! ### Claim C8 -/

theorem filterSimilar_foldl_eq (threshold : ℝ) :
    ∀ (results kept : List (ScoredEntry α)),
      List.foldl
        (fun filtered result =>
          if filtered.any
              (fun existing => |existing.similarity - result.similarity| < 1 - threshold)
          then filtered
          else filtered ++ [result]) kept results
        = filterSimilarKeepSpec threshold kept results := by
  intro results
  induction results with
  | nil => intro kept; rfl
  | cons r rest ih =>
    intro kept
    rw [List.foldl_cons]
    by_cases h : ∀ e ∈ kept, ¬ |e.similarity - r.similarity| < 1 - threshold
    · have hany :
          (kept.any fun existing => |existing.similarity - r.similarity| < 1 - threshold)
            = false := by
        simp only [List.any_eq_false, decide_eq_true_eq]
        exact h
      rw [hany]
      simp only [Bool.false_eq_true, if_false, filterSimilarKeepSpec, if_pos h]
      exact ih (kept ++ [r])
    · have hany :
          (kept.any fun existing => |existing.similarity - r.similarity| < 1 - threshold)
            = true := by
        simp only [List.any_eq_true, decide_eq_true_eq]
        push_neg at h
        rcases h with ⟨e, he, hlt⟩
        exact ⟨e, he, hlt⟩
      rw [hany]
      simp only [if_true, filterSimilarKeepSpec, if_neg h]
      exact ih kept

/-- Claim C8: `filterSimilarResults` keeps a result if and only if no
previously kept result's score lies strictly within `(1 - threshold)` of it,
processing results greedily in input order — i.e. it coincides with the
greedy keep-loop written from the specification. The test involves only
scores, never vector distances. -/
theorem filterSimilarResults_eq_greedy_spec (results : List (ScoredEntry α)) (threshold : ℝ) :
    filterSimilarResults results threshold = filterSimilarKeepSpec threshold [] results :=
  filterSimilar_foldl_eq threshold results []

/-! ### Claim C5 -/

/-- Claim C5 counterexample: with two equal-score one-dimensional candidates
and k = -1, `findTopKSimilar` returns a one-element list, not the empty
sequence, because `slice(0, k)` with negative k counts from the end. -/
theorem findTopKSimilar_negative_k_cex :
    findTopKSimilar [(1 : ℝ)] c5Candidates (-1) ≠ .ok [] := by
  have hscore := scoreAll_eq_map [(1 : ℝ)] c5Candidates
    (by intro c hc; simp [c5Candidates] at hc; rcases hc with rfl | rfl <;> rfl)
  unfold findTopKSimilar
  rw [hscore]
  simp only [c5Candidates, List.map_cons, List.map_nil]
  simp only [List.insertionSort, List.orderedInsert, similarityDesc, le_refl, if_true]
  simp [jsSliceTo]

/-- Claim C5 amended: for k = 0 (over candidates of the query's dimension)
the result is empty, but a negative k follows the JavaScript slice semantics:
the sorted score list loses its last |k| entries, leaving
`(candidates.length + k).toNat` results — nonempty whenever |k| is less than
the candidate count. -/
theorem findTopKSimilar_nonpos_k_amended (qv : List ℝ) (cands : List (VectorEntry α))
    (k : Int) (hlen : ∀ c ∈ cands, c.vector.length = qv.length) (hk : k ≤ 0) :
    ∃ l, findTopKSimilar qv cands k = .ok l ∧
      l.length = if k = 0 then 0 else ((cands.length : Int) + k).toNat := by
  have hscore := scoreAll_eq_map qv cands hlen
  refine ⟨jsSliceTo (List.insertionSort similarityDesc
      (cands.map fun c => ⟨c.id, cosineValue qv c.vector, c.data⟩)) k, ?_, ?_⟩
  · simp only [findTopKSimilar, hscore]
  · have hlen2 : (List.insertionSort similarityDesc
        (cands.map fun c => (⟨c.id, cosineValue qv c.vector, c.data⟩ : ScoredEntry α))).length
        = cands.length := by
      rw [(List.perm_insertionSort _ _).length_eq, List.length_map]
    by_cases h0 : k = 0
    · subst h0
      rw [if_pos rfl, jsSliceTo_zero]
      rfl
    · rw [if_neg h0]
      unfold jsSliceTo
      rw [if_neg (by omega), List.length_take, hlen2]
      omega

/-- Witness for the amended C5 at the two-candidate list and k = -1. -/
theorem findTopKSimilar_nonpos_k_amended_witness :
    ∃ l, findTopKSimilar [(1 : ℝ)] c5Candidates (-1) = .ok l ∧
      l.length = if (-1 : Int) = 0 then 0 else ((c5Candidates.length : Int) + -1).toNat :=
  findTopKSimilar_nonpos_k_amended [1] c5Candidates (-1)
    (by intro c hc; simp [c5Candidates] at hc; rcases hc with rfl | rfl <;> rfl) (by omega)

/-! ### Claim C6 -/

/-- Claim C6: over candidates of the query's dimension, `findTopKSimilar`
returns a descending-score-sorted list; a k at least the candidate count
yields an entry (with the candidate's id, payload and cosine score) for every
candidate; and k = 0 yields the empty sequence. -/
theorem findTopKSimilar_sorted_complete (qv : List ℝ) (cands : List (VectorEntry α))
    (k : Int) (hlen : ∀ c ∈ cands, c.vector.length = qv.length) :
    ∃ l, findTopKSimilar qv cands k = .ok l ∧
      List.Sorted similarityDesc l ∧
      ((cands.length : Int) ≤ k → ∀ c ∈ cands, ∃ r ∈ l, r.id = c.id ∧ r.data = c.data ∧
        r.similarity = cosineValue qv c.vector) ∧
      (k = 0 → l = []) := by
  have hscore := scoreAll_eq_map qv cands hlen
  refine ⟨jsSliceTo (List.insertionSort similarityDesc
      (cands.map fun c => ⟨c.id, cosineValue qv c.vector, c.data⟩)) k, ?_, ?_, ?_, ?_⟩
  · simp only [findTopKSimilar, hscore]
  · exact List.Pairwise.sublist (jsSliceTo_sublist _ _) (List.sorted_insertionSort _ _)
  · intro hk c hc
    have hslice : jsSliceTo (List.insertionSort similarityDesc
        (cands.map fun c => (⟨c.id, cosineValue qv c.vector, c.data⟩ : ScoredEntry α))) k
        = List.insertionSort similarityDesc
            (cands.map fun c => (⟨c.id, cosineValue qv c.vector, c.data⟩ : ScoredEntry α)) :=
      jsSliceTo_of_length_le _ _
        (by rw [(List.perm_insertionSort _ _).length_eq, List.length_map]; exact_mod_cast hk)
    rw [hslice]
    refine ⟨(⟨c.id, cosineValue qv c.vector, c.data⟩ : ScoredEntry α), ?_, rfl, rfl, rfl⟩
    exact (List.perm_insertionSort _ _).mem_iff.mpr
      (List.mem_map_of_mem
        (fun c : VectorEntry α => (⟨c.id, cosineValue qv c.vector, c.data⟩ : ScoredEntry α)) hc)
  · intro h0
    subst h0
    exact jsSliceTo_zero _

/-- Witness for C6 at a single one-dimensional candidate and k = 5. -/
theorem findTopKSimilar_sorted_complete_witness :
    ∃ l, findTopKSimilar [(1 : ℝ)] c6Candidates 5 = .ok l ∧
      List.Sorted similarityDesc l ∧
      ((c6Candidates.length : Int) ≤ 5 → ∀ c ∈ c6Candidates, ∃ r ∈ l, r.id = c.id ∧
        r.data = c.data ∧ r.similarity = cosineValue [(1 : ℝ)] c.vector) ∧
      ((5 : Int) = 0 → l = []) :=
  findTopKSimilar_sorted_complete [1] c6Candidates 5
    (by intro c hc; simp [c6Candidates] at hc; subst hc; rfl)

theorem jsSliceTo_nil (k : Int) : jsSliceTo ([] : List α) k = [] := by
  unfold jsSliceTo
  split <;> simp

/-! ### Claim C4 -/

/-- Claim C4 counterexample: an active product with a stored vector of
dimension 1 passes the route's presence-only filter, so the candidates handed
to `findTopKSimilar` do not all have the query's dimension 2. -/
theorem searchRoute_dimension_filter_cex :
    ¬ ∀ e ∈ productsWithVectors (fetchFilteredProducts [c4Product] c4Req),
        e.vector.length = c4QueryVec.length := by
  decide

/-- Claim C4 amended: the route's filter checks only that an embedding is
present, so a stored vector of mismatched dimension reaches
`findTopKSimilar`, whose `cosineSimilarity` throws the dimension-mismatch
error; the route's catch block then degrades the request to the keyword
fallback instead of crashing. -/
theorem searchRoute_dimension_mismatch_amended (catalog : List Product) (req : SearchRequest)
    (qv : List ℝ)
    (h : ∃ e ∈ productsWithVectors (fetchFilteredProducts catalog req),
      e.vector.length ≠ qv.length) :
    searchTryBranch catalog req (.ok qv) = .error "Vectors must have the same length" ∧
      searchRoute catalog req (.ok qv) =
        .plain (fallbackKeywordProducts catalog req)
          (fallbackKeywordProducts catalog req).length "keyword-fallback" := by
  have herr :=
    scoreAll_error_of_mismatch qv (productsWithVectors (fetchFilteredProducts catalog req)) h
  have htry : searchTryBranch catalog req (.ok qv)
      = .error "Vectors must have the same length" := by
    unfold searchTryBranch vectorSearchResults findTopKSimilar
    dsimp only
    rw [herr]
  refine ⟨htry, ?_⟩
  unfold searchRoute
  rw [htry]

/-- Witness for the amended C4 at the concrete mismatched catalog. -/
theorem searchRoute_dimension_mismatch_amended_witness :
    searchTryBranch [c4Product] c4Req (.ok c4QueryVec)
        = .error "Vectors must have the same length" ∧
      searchRoute [c4Product] c4Req (.ok c4QueryVec) =
        .plain (fallbackKeywordProducts [c4Product] c4Req)
          (fallbackKeywordProducts [c4Product] c4Req).length "keyword-fallback" :=
  searchRoute_dimension_mismatch_amended [c4Product] c4Req c4QueryVec (by decide)

/-! ### Claim C3 -/

/-- Claim C3: when the query-embedding call throws, the search request still
succeeds: the route answers with a success response whose `method` is
`keyword-fallback` and whose products are exactly those of the catch-block
keyword query — every one of them matches the query text in its name or in
its description — never propagating the provider error. (Because the raw
LIKE fragment is inlined unparenthesized, a description match alone
suffices; no stronger status guarantee holds.) -/
theorem searchRoute_embed_failure_keyword_fallback (catalog : List Product)
    (req : SearchRequest) (msg : String) :
    searchRoute catalog req (.error msg) =
      .plain (fallbackKeywordProducts catalog req)
        (fallbackKeywordProducts catalog req).length "keyword-fallback" ∧
      ∀ p ∈ fallbackKeywordProducts catalog req,
        (strContains (strToLower p.name) (strToLower req.query) ||
          strContains (strToLower p.description) (strToLower req.query)) = true := by
  constructor
  · rfl
  · intro p hp
    unfold fallbackKeywordProducts at hp
    have hp2 := (List.take_sublist _ _).subset hp
    have hcond := List.of_mem_filter hp2
    rcases Bool.or_eq_true_iff.mp hcond with hleft | hdesc
    · simp only [Bool.and_eq_true] at hleft
      exact Bool.or_eq_true_iff.mpr (Or.inl hleft.2)
    · exact Bool.or_eq_true_iff.mpr (Or.inr hdesc)

/-- Witness for C3 at a one-row catalog and a failing embedding call. -/
theorem searchRoute_embed_failure_keyword_fallback_witness :
    searchRoute [c3Product] c3Req (.error "provider down") =
      .plain (fallbackKeywordProducts [c3Product] c3Req)
        (fallbackKeywordProducts [c3Product] c3Req).length "keyword-fallback" :=
  (searchRoute_embed_failure_keyword_fallback [c3Product] c3Req "provider down").1

/-! ### Claim C1 -/

/-- Claim C1 counterexample: over a one-row catalog whose status is
`in_stock` (satisfying the schema enum) and whose description contains the
query text, the error-fallback path is not empty: the raw LIKE fragment is
inlined into `and(...)` unparenthesized, so the description match bypasses
the status condition and the row is returned. -/
theorem statusEnum_fallback_nonempty_cex :
    (∀ p ∈ [c1Product], p.status ∈ productStatusEnum) ∧
      searchRoute [c1Product] c1Req (.error "provider down") =
        .plain [c1Product] 1 "keyword-fallback" ∧
      fallbackKeywordProducts [c1Product] c1Req ≠ [] := by
  refine ⟨by decide, rfl, ?_⟩
  rw [show fallbackKeywordProducts [c1Product] c1Req = [c1Product] from rfl]
  simp

/-- Claim C1 amended: over any catalog whose rows satisfy the schema's
status enum, the candidate pool is empty, so the vector path and the
in-request keyword path return an empty product list; but the catch-block
fallback query does not in general: since drizzle inlines the raw LIKE
fragment unparenthesized, its condition degenerates (status never being
`active`) to `description LIKE '%q%'`, and the error-fallback path returns
the description-matching rows up to the limit. -/
theorem statusEnum_vector_paths_empty_amended (catalog : List Product)
    (req : SearchRequest) (hstatus : ∀ p ∈ catalog, p.status ∈ productStatusEnum) :
    fetchFilteredProducts catalog req = [] ∧
      (∀ v : List ℝ, searchTryBranch catalog req (.ok v) = .ok (.scored [] 0 "keyword")) ∧
      fallbackKeywordProducts catalog req =
        (catalog.filter fun p =>
          strContains (strToLower p.description) (strToLower req.query)).take
          req.limit.toNat ∧
      ∀ e, searchRoute catalog req (.error e) =
        .plain (fallbackKeywordProducts catalog req)
          (fallbackKeywordProducts catalog req).length "keyword-fallback" := by
  have hact : ∀ p ∈ catalog, (p.status == "active") = false := by
    intro p hp
    have hmem := hstatus p hp
    simp only [productStatusEnum, List.mem_cons, List.not_mem_nil, or_false] at hmem
    rcases hmem with h | h | h <;> rw [h] <;> rfl
  have hfetch : fetchFilteredProducts catalog req = [] := by
    unfold fetchFilteredProducts
    rw [List.filter_eq_nil_iff]
    intro p hp
    simp [hact p hp]
  have hfall : fallbackKeywordProducts catalog req =
      (catalog.filter fun p =>
        strContains (strToLower p.description) (strToLower req.query)).take
        req.limit.toNat := by
    unfold fallbackKeywordProducts
    have hcong : ∀ p2 ∈ catalog,
        ((p2.status == "active" && matchesOptFilter p2.category req.category &&
            matchesOptFilter p2.brand req.brand &&
            strContains (strToLower p2.name) (strToLower req.query)) ||
          strContains (strToLower p2.description) (strToLower req.query))
          = strContains (strToLower p2.description) (strToLower req.query) := by
      intro p2 hp2
      simp [hact p2 hp2]
    rw [List.filter_congr hcong]
  have htry : ∀ v : List ℝ, searchTryBranch catalog req (.ok v)
      = .ok (.scored [] 0 "keyword") := by
    intro v
    unfold searchTryBranch vectorSearchResults findTopKSimilar
    rw [hfetch]
    simp [productsWithVectors, scoreAll, keywordSearchResults, mergeSearchResults, jsSliceTo_nil]
  refine ⟨hfetch, htry, hfall, ?_⟩
  intro e
  unfold searchRoute
  have hb : searchTryBranch catalog req (.error e) = .error e := rfl
  rw [hb]

/-- Witness for the amended C1 at the one-row `in_stock` catalog. -/
theorem statusEnum_vector_paths_empty_amended_witness :
    fetchFilteredProducts [c1Product] c1Req = [] ∧
      (∀ v : List ℝ, searchTryBranch [c1Product] c1Req (.ok v)
        = .ok (.scored [] 0 "keyword")) ∧
      fallbackKeywordProducts [c1Product] c1Req =
        ([c1Product].filter fun p =>
          strContains (strToLower p.description) (strToLower c1Req.query)).take
          c1Req.limit.toNat ∧
      ∀ e, searchRoute [c1Product] c1Req (.error e) =
        .plain (fallbackKeywordProducts [c1Product] c1Req)
          (fallbackKeywordProducts [c1Product] c1Req).length "keyword-fallback" :=
  statusEnum_vector_paths_empty_amended [c1Product] c1Req (by decide)

/-! ### Claim C2 -/

/-- Claim C2 counterexample: in the 12-item scenario with item 7 failing, it
is not the case that items 1-6 and 8-10 end up embedded with 11/12 reported:
`Promise.all` rejects the whole first batch, so none of items 1-10 is
persisted and only 2 items are counted. -/
theorem vectorize_sibling_persistence_cex :
    ¬ ((vectorizeProducts c2Embed c2Catalog).processedCount = 11 ∧
      ((vectorizeProducts c2Embed c2Catalog).catalog.map fun p => p.vectorEmbedding.isSome) =
        [true, true, true, true, true, true, false, true, true, true, true, true]) := by
  decide

/-- Claim C2 amended: when embedding one item of a batch fails, the whole
batch's `Promise.all` rejects and none of that batch's items is persisted;
the pipeline proceeds to the next batch. In the 12-item scenario with item 7
failing, only items 11 and 12 end up embedded and 2/12 are reported. -/
theorem vectorize_batch_failure_amended :
    (∀ (embed : String → Option (List ℝ)) (batch : List Product)
        (rest : List (List Product)) (catalog : List Product) (processed : Nat),
        (∃ p ∈ batch, embed (combineProductFields p) = none) →
        runVectorizeBatches embed (batch :: rest) catalog processed =
          runVectorizeBatches embed rest catalog processed) ∧
      (vectorizeProducts c2Embed c2Catalog).processedCount = 2 ∧
      (vectorizeProducts c2Embed c2Catalog).totalCount = 12 ∧
      ((vectorizeProducts c2Embed c2Catalog).catalog.map fun p => p.vectorEmbedding.isSome) =
        [false, false, false, false, false, false, false, false, false, false, true, true] := by
  refine ⟨?_, by decide, by decide, by decide⟩
  intro embed batch rest catalog processed h
  rcases h with ⟨p, hp, hnone⟩
  have hnone2 : generateBatchEmbeddings embed (batch.map combineProductFields) = none :=
    generateBatchEmbeddings_eq_none embed _
      ⟨combineProductFields p, List.mem_map_of_mem _ hp, hnone⟩
  conv_lhs => rw [runVectorizeBatches]
  rw [hnone2]

/-- Witness for the amended C2: a singleton batch whose only item fails to
embed is skipped entirely. -/
theorem vectorize_batch_failure_amended_witness :
    runVectorizeBatches c2Embed [[c2Product7]] [] 0 = runVectorizeBatches c2Embed [] [] 0 :=
  vectorize_batch_failure_amended.1 c2Embed [c2Product7] [] [] 0
    ⟨c2Product7, List.mem_singleton.mpr rfl, rfl⟩

/-! ### Claim C10 -/

theorem parseSearchRequest_ok_shape (raw : RawSearchQuery) (v : SearchRequest)
    (hv : parseSearchRequest raw = .ok v) :
    1 ≤ (raw.query.getD "").length ∧ (raw.query.getD "").length ≤ 500 ∧
      0 < raw.limit.getD 10 ∧ raw.limit.getD 10 ≤ 50 ∧
      0 ≤ raw.minSimilarity.getD 0.5 ∧ raw.minSimilarity.getD 0.5 ≤ 1 ∧
      v = ⟨sanitizePrompt (raw.query.getD ""), raw.limit.getD 10, raw.minSimilarity.getD 0.5,
        raw.category, raw.brand⟩ := by
  unfold parseSearchRequest at hv
  dsimp only at hv
  split at hv
  · exact absurd hv (by simp)
  split at hv
  · exact absurd hv (by simp)
  split at hv
  · exact absurd hv (by simp)
  split at hv
  · exact absurd hv (by simp)
  split at hv
  · exact absurd hv (by simp)
  next h1 h2 h3 h4 h5 =>
    injection hv with hv2
    push_neg at h5
    exact ⟨by omega, by omega, by omega, by omega, h5.1, h5.2, hv2.symm⟩

/-- Claim C10: a search request with an empty query, a non-positive or
over-50 limit, or a threshold outside the unit interval fails validation,
and the failure is independent of the catalog and of the embedding oracle
(no downstream call can observe it); absent limit and threshold parameters
default to 10 and 0.5 respectively. -/
theorem searchValidation_spec (raw : RawSearchQuery) :
    ((raw.query.getD "" = "" ∨ raw.limit.getD 10 ≤ 0 ∨ 50 < raw.limit.getD 10 ∨
        raw.minSimilarity.getD 0.5 < 0 ∨ 1 < raw.minSimilarity.getD 0.5) →
      ∃ msg, parseSearchRequest raw = .error msg ∧
        ∀ catalog embed, searchEndpoint catalog embed raw = .error msg) ∧
      ∀ v, parseSearchRequest raw = .ok v →
        (raw.limit = none → v.limit = 10) ∧
          (raw.minSimilarity = none → v.minSimilarity = 0.5) := by
  constructor
  · intro h
    cases hp : parseSearchRequest raw with
    | error msg =>
      refine ⟨msg, rfl, fun catalog embed => ?_⟩
      unfold searchEndpoint
      rw [hp]
    | ok v =>
      exfalso
      obtain ⟨h1, _, h3, h4, h5, h6, _⟩ := parseSearchRequest_ok_shape raw v hp
      rcases h with hq | hl | hl2 | hm | hm2
      · rw [hq] at h1
        exact absurd h1 (by decide)
      · omega
      · omega
      · linarith
      · linarith
  · intro v hv
    obtain ⟨_, _, _, _, _, _, hshape⟩ := parseSearchRequest_ok_shape raw v hv
    subst hshape
    exact ⟨fun hnone => by simp [hnone], fun hnone => by simp [hnone]⟩

/-- Witness for C10: the empty-query request fails for every catalog and
embedding oracle, and the request with absent limit and threshold parses to
limit 10 and threshold 0.5. -/
theorem searchValidation_spec_witness :
    (∃ msg, parseSearchRequest c10RawEmpty = .error msg ∧
        ∀ catalog embed, searchEndpoint catalog embed c10RawEmpty = .error msg) ∧
      c10ParsedDefaults.limit = 10 ∧ c10ParsedDefaults.minSimilarity = 0.5 := by
  have hparse : parseSearchRequest c10RawDefaults = .ok c10ParsedDefaults := by
    unfold parseSearchRequest c10RawDefaults c10ParsedDefaults
    dsimp only
    rw [if_neg (by decide), if_neg (by decide), if_neg (by decide), if_neg (by decide),
      if_neg (by norm_num)]
    rfl
  have h2 := (searchValidation_spec c10RawDefaults).2 c10ParsedDefaults hparse
  exact ⟨(searchValidation_spec c10RawEmpty).1 (Or.inl rfl), h2.1 rfl, h2.2 rfl⟩

/-! ### Claim C9 -/

/-- Claim C9 counterexample: with threshold 0, a vector hit scoring 0 is
followed in the merged list by a keyword hit with the fixed score 0.3, so the
merged list the route returns is not ordered by descending score. -/
theorem searchMerge_order_cex :
    searchTryBranch c9Catalog c9Req (.ok c9QueryVec) =
        .ok (.scored [⟨c9VectorProduct, 0⟩, ⟨c9KeywordProduct, 0.3⟩] 2 "hybrid") ∧
      ¬ List.Sorted hitDesc [⟨c9VectorProduct, 0⟩, ⟨c9KeywordProduct, (0.3 : ℝ)⟩] := by
  have hcv : cosineValue c9QueryVec [(0 : ℝ), 1] = 0 := by
    unfold cosineValue c9QueryVec
    have h1 : sumSq [(1 : ℝ), 0] = 1 := by norm_num [sumSq]
    have h2 : sumSq [(0 : ℝ), 1] = 1 := by norm_num [sumSq]
    rw [h1, h2, Real.sqrt_one]
    rw [if_neg (by norm_num)]
    norm_num [dotProduct]
  have hscore : scoreAll c9QueryVec (productsWithVectors (fetchFilteredProducts c9Catalog c9Req))
      = .ok [⟨"v", (0 : ℝ), c9VectorProduct⟩] := by
    rw [show productsWithVectors (fetchFilteredProducts c9Catalog c9Req)
        = [⟨"v", [0, 1], c9VectorProduct⟩] from rfl]
    rw [scoreAll_eq_map _ _ (by intro c hc; simp at hc; subst hc; rfl)]
    simp [hcv]
  have hkeep : (decide (c9Req.minSimilarity ≤ (0 : ℝ))) = true := by
    rw [decide_eq_true_eq]
    norm_num [c9Req]
  have hvres : vectorSearchResults c9QueryVec (fetchFilteredProducts c9Catalog c9Req) c9Req
      = .ok [⟨"v", (0 : ℝ), c9VectorProduct⟩] := by
    unfold vectorSearchResults findTopKSimilar
    rw [hscore]
    dsimp only
    rw [show jsSliceTo (List.insertionSort similarityDesc
        [(⟨"v", (0 : ℝ), c9VectorProduct⟩ : ScoredEntry Product)]) (c9Req.limit * 2)
        = [⟨"v", (0 : ℝ), c9VectorProduct⟩] from rfl]
    simp [List.filter_cons, List.filter_nil, hkeep]
  refine ⟨?_, ?_⟩
  · unfold searchTryBranch
    dsimp only
    rw [hvres]
    rfl
  · intro h
    have h2 := (List.sorted_cons.mp h).1 ⟨c9KeywordProduct, 0.3⟩ (by simp)
    have h3 : (0.3 : ℝ) ≤ 0 := h2
    norm_num at h3

/-- Claim C9 amended: provided the stored vectors have the query's dimension,
the catalog ids are distinct, the limit is non-negative and the threshold is
at least the keyword sentinel score 0.3 (as the default 0.5 is), the route's
merge step gives vector results priority, appends keyword results only for
ids not in the vector result set (so every id appears at most once, and an
id present in the vector results keeps its vector-derived score), keeps the
merged list ordered by descending score, and truncates it to the requested
limit. Below the 0.3 sentinel the descending order can fail, as the
counterexample shows. -/
theorem searchMerge_priority_amended (catalog : List Product) (req : SearchRequest)
    (qv : List ℝ)
    (hlen : ∀ p ∈ catalog, ∀ w, p.vectorEmbedding = some w → w.length = qv.length)
    (hnodup : (catalog.map Product.id).Nodup)
    (hms : (0.3 : ℝ) ≤ req.minSimilarity)
    (hlim : 0 ≤ req.limit) :
    ∃ vres hits,
      vectorSearchResults qv (fetchFilteredProducts catalog req) req = .ok vres ∧
      mergeSearchResults vres (keywordSearchResults (fetchFilteredProducts catalog req) req)
          req.limit = hits ∧
      searchTryBranch catalog req (.ok qv) =
        .ok (.scored hits hits.length (if vres.length > 0 then "hybrid" else "keyword")) ∧
      List.Sorted hitDesc hits ∧
      (hits.map fun h => h.product.id).Nodup ∧
      hits.length ≤ req.limit.toNat ∧
      (∀ r ∈ vres, ∀ h ∈ hits, h.product.id = r.id → h.similarity = r.similarity) := by
  have hlenc : ∀ c ∈ productsWithVectors (fetchFilteredProducts catalog req),
      c.vector.length = qv.length := by
    intro c hc
    unfold productsWithVectors at hc
    obtain ⟨p, hpf, rfl⟩ := List.mem_map.mp hc
    have hps := List.of_mem_filter hpf
    obtain ⟨w, hw⟩ := Option.isSome_iff_exists.mp hps
    have hp_cat : p ∈ catalog := by
      have hmemf := List.mem_of_mem_filter hpf
      unfold fetchFilteredProducts at hmemf
      exact List.mem_of_mem_filter hmemf
    simpa [hw] using hlen p hp_cat w hw
  have hscore := scoreAll_eq_map qv (productsWithVectors (fetchFilteredProducts catalog req))
    hlenc
  -- Names for the intermediate lists of the route.
  set allP := fetchFilteredProducts catalog req with hallP
  set cands := productsWithVectors allP with hcandsdef
  set f : VectorEntry Product → ScoredEntry Product :=
    fun c => ⟨c.id, cosineValue qv c.vector, c.data⟩ with hfdef
  set sorted := List.insertionSort similarityDesc (cands.map f) with hsorteddef
  set sliced := jsSliceTo sorted (req.limit * 2) with hsliceddef
  set vres := sliced.filter (fun r => decide (req.minSimilarity ≤ r.similarity)) with hvresdef
  set kws := keywordSearchResults allP req with hkwsdef
  set kfil := kws.filter (fun p => !(vres.any fun r => r.id == p.id)) with hkfildef
  set vmap := vres.map
    (fun r => ({ product := r.data, similarity := r.similarity } : SearchHit)) with hvmapdef
  set kmap := kfil.map (fun p => ({ product := p, similarity := 0.3 } : SearchHit)) with hkmapdef
  have hvreseq : vectorSearchResults qv allP req = .ok vres := by
    unfold vectorSearchResults findTopKSimilar
    rw [hscore]
  have hmerge : mergeSearchResults vres kws req.limit = jsSliceTo (vmap ++ kmap) req.limit := rfl
  refine ⟨vres, jsSliceTo (vmap ++ kmap) req.limit, hvreseq, hmerge, ?_, ?_, ?_, ?_, ?_⟩
  -- The try branch returns exactly the merged list.
  · unfold searchTryBranch
    dsimp only
    rw [hvreseq]
    dsimp only
    rw [← hallP, ← hkwsdef, hmerge]
  -- Sorted by descending score.
  · have hsort_vres : List.Sorted similarityDesc vres :=
      List.Pairwise.sublist (List.filter_sublist sliced)
        (List.Pairwise.sublist (jsSliceTo_sublist sorted (req.limit * 2))
          (List.sorted_insertionSort similarityDesc (cands.map f)))
    have hmin : ∀ r ∈ vres, req.minSimilarity ≤ r.similarity := by
      intro r hr
      have hcond := List.of_mem_filter hr
      simpa [decide_eq_true_eq] using hcond
    have hsv : List.Pairwise hitDesc vmap := List.pairwise_map.mpr hsort_vres
    have hsk : List.Pairwise hitDesc kmap :=
      List.pairwise_map.mpr (List.pairwise_of_forall_mem_list fun _ _ _ _ => le_refl (0.3 : ℝ))
    have hcross : ∀ x ∈ vmap, ∀ y ∈ kmap, hitDesc x y := by
      intro x hx y hy
      obtain ⟨r, hr, rfl⟩ := List.mem_map.mp hx
      obtain ⟨p, _, rfl⟩ := List.mem_map.mp hy
      exact le_trans hms (hmin r hr)
    exact List.Pairwise.sublist (jsSliceTo_sublist _ _)
      (List.pairwise_append.mpr ⟨hsv, hsk, hcross⟩)
  -- Every id appears at most once.
  · have hallP_sub : List.Sublist allP catalog := List.filter_sublist catalog
    have hcands_ids : (cands.map VectorEntry.id).Nodup := by
      have heq : cands.map VectorEntry.id
          = (allP.filter fun p => p.vectorEmbedding.isSome).map Product.id := by
        rw [hcandsdef]
        unfold productsWithVectors
        rw [List.map_map]
        rfl
      rw [heq]
      exact hnodup.sublist
        (((List.filter_sublist allP).trans hallP_sub).map Product.id)
    have hvres_sub_sorted : List.Sublist vres sorted :=
      (List.filter_sublist sliced).trans (jsSliceTo_sublist sorted (req.limit * 2))
    have hsorted_ids : (sorted.map ScoredEntry.id).Nodup := by
      have hperm := (List.perm_insertionSort similarityDesc (cands.map f)).map ScoredEntry.id
      rw [hperm.nodup_iff]
      have heq2 : (cands.map f).map ScoredEntry.id = cands.map VectorEntry.id := by
        rw [List.map_map]
        rfl
      rw [heq2]
      exact hcands_ids
    have hvres_ids : (vres.map ScoredEntry.id).Nodup :=
      hsorted_ids.sublist (hvres_sub_sorted.map ScoredEntry.id)
    have hdata_id : ∀ r ∈ vres, r.data.id = r.id := by
      intro r hr
      have hr2 : r ∈ cands.map f :=
        (List.perm_insertionSort similarityDesc (cands.map f)).mem_iff.mp
          (hvres_sub_sorted.subset hr)
      obtain ⟨c, hc, rfl⟩ := List.mem_map.mp hr2
      rw [hcandsdef] at hc
      unfold productsWithVectors at hc
      obtain ⟨p, _, rfl⟩ := List.mem_map.mp hc
      rfl
    have hvmap_ids : (vmap.map fun h => h.product.id) = vres.map ScoredEntry.id := by
      rw [hvmapdef, List.map_map]
      exact List.map_congr_left fun r hr => hdata_id r hr
    have hkfil_ids : (kmap.map fun h => h.product.id).Nodup := by
      have heq3 : (kmap.map fun h => h.product.id) = kfil.map Product.id := by
        rw [hkmapdef, List.map_map]
        rfl
      rw [heq3]
      have hsub : List.Sublist kfil catalog := by
        refine ((List.filter_sublist kws).trans ?_)
        rw [hkwsdef]
        unfold keywordSearchResults
        exact ((List.filter_sublist _).trans ((List.filter_sublist allP).trans hallP_sub))
      exact hnodup.sublist (hsub.map Product.id)
    have hdisj : List.Disjoint (vmap.map fun h => h.product.id)
        (kmap.map fun h => h.product.id) := by
      intro a ha hb
      rw [hvmap_ids] at ha
      obtain ⟨r, hr, rfl⟩ := List.mem_map.mp ha
      rw [hkmapdef, List.map_map] at hb
      obtain ⟨p, hp, hpid⟩ := List.mem_map.mp hb
      have hany := List.of_mem_filter hp
      have hany2 : (vres.any fun r2 => r2.id == p.id) = false := by
        simpa using hany
      rw [List.any_eq_false] at hany2
      have := hany2 r hr
      simp only [beq_iff_eq] at this
      exact this (by simpa using hpid.symm)
    have hcomb_ids : ((vmap ++ kmap).map fun h => h.product.id).Nodup := by
      rw [List.map_append]
      refine List.nodup_append.mpr ⟨?_, hkfil_ids, hdisj⟩
      rw [hvmap_ids]
      exact hvres_ids
    exact hcomb_ids.sublist ((jsSliceTo_sublist (vmap ++ kmap) req.limit).map _)
  -- Truncated to the requested limit.
  · unfold jsSliceTo
    rw [if_pos hlim]
    exact le_trans (le_of_eq (List.length_take _ _)) (min_le_left _ _)
  -- An id present in the vector results keeps its vector-derived score.
  · intro r hr h hh hid
    have hvres_sub_sorted : List.Sublist vres sorted :=
      (List.filter_sublist sliced).trans (jsSliceTo_sublist sorted (req.limit * 2))
    have hdata_id : ∀ r2 ∈ vres, r2.data.id = r2.id := by
      intro r2 hr2
      have hr3 : r2 ∈ cands.map f :=
        (List.perm_insertionSort similarityDesc (cands.map f)).mem_iff.mp
          (hvres_sub_sorted.subset hr2)
      obtain ⟨c, hc, rfl⟩ := List.mem_map.mp hr3
      rw [hcandsdef] at hc
      unfold productsWithVectors at hc
      obtain ⟨p, _, rfl⟩ := List.mem_map.mp hc
      rfl
    have hvres_ids : (vres.map ScoredEntry.id).Nodup := by
      have hcands_ids : (cands.map VectorEntry.id).Nodup := by
        have heq : cands.map VectorEntry.id
            = (allP.filter fun p => p.vectorEmbedding.isSome).map Product.id := by
          rw [hcandsdef]
          unfold productsWithVectors
          rw [List.map_map]
          rfl
        rw [heq]
        exact hnodup.sublist
          (((List.filter_sublist allP).trans (List.filter_sublist catalog)).map Product.id)
      have hsorted_ids : (sorted.map ScoredEntry.id).Nodup := by
        have hperm := (List.perm_insertionSort similarityDesc (cands.map f)).map ScoredEntry.id
        rw [hperm.nodup_iff]
        have heq2 : (cands.map f).map ScoredEntry.id = cands.map VectorEntry.id := by
          rw [List.map_map]
          rfl
        rw [heq2]
        exact hcands_ids
      exact hsorted_ids.sublist (hvres_sub_sorted.map ScoredEntry.id)
    have hh2 : h ∈ vmap ++ kmap := (jsSliceTo_sublist (vmap ++ kmap) req.limit).subset hh
    rcases List.mem_append.mp hh2 with hv | hk
    · obtain ⟨r2, hr2, rfl⟩ := List.mem_map.mp hv
      have hid2 : r2.id = r.id := by
        have := hdata_id r2 hr2
        simpa [this] using hid
      have : r2 = r := List.inj_on_of_nodup_map hvres_ids hr2 hr hid2
      rw [this]
    · exfalso
      obtain ⟨p, hp, rfl⟩ := List.mem_map.mp hk
      have hany := List.of_mem_filter hp
      have hany2 : (vres.any fun r2 => r2.id == p.id) = false := by
        simpa using hany
      rw [List.any_eq_false] at hany2
      have hne := hany2 r hr
      simp only [beq_iff_eq] at hne
      exact hne (by simpa using hid.symm)

/-- Witness for the amended C9 at the two-row catalog with the default
threshold 0.5. -/
theorem searchMerge_priority_amended_witness :
    ∃ vres hits,
      vectorSearchResults c9QueryVec (fetchFilteredProducts c9Catalog c9ReqDefault)
          c9ReqDefault = .ok vres ∧
      mergeSearchResults vres
          (keywordSearchResults (fetchFilteredProducts c9Catalog c9ReqDefault) c9ReqDefault)
          c9ReqDefault.limit = hits ∧
      searchTryBranch c9Catalog c9ReqDefault (.ok c9QueryVec) =
        .ok (.scored hits hits.length (if vres.length > 0 then "hybrid" else "keyword")) ∧
      List.Sorted hitDesc hits ∧
      (hits.map fun h => h.product.id).Nodup ∧
      hits.length ≤ c9ReqDefault.limit.toNat ∧
      (∀ r ∈ vres, ∀ h ∈ hits, h.product.id = r.id → h.similarity = r.similarity) :=
  searchMerge_priority_amended c9Catalog c9ReqDefault c9QueryVec
    (by
      intro p hp w hw
      simp only [c9Catalog, List.mem_cons, List.not_mem_nil, or_false] at hp
      rcases hp with rfl | rfl
      · simp only [c9VectorProduct] at hw
        injection hw with hw2
        rw [← hw2]
        rfl
      · simp only [c9KeywordProduct] at hw
        cases hw)
    (by decide) (by norm_num [c9ReqDefault]) (by decide)

end VibeCommerce
